import Mathlib

/-!
Shallow embedding of the `jumpcloud` Terraform provider package
(`terraform-provider-jumpcloud`): the user-group resource's CRUD helpers
(`resource_user_group.go`), their duplicates in `utils.go`, and the
application lookup data source (`data_source_jumpcloud_application.go`).

Remote HTTP/SDK calls are modelled as function parameters returning
`Except String` values (the error string standing for the Go `error`);
pagination loops, which in Go are unbounded `for` loops, take an explicit
`fuel` bound and return `none` when the bound is hit, and additionally
return the number of fetch calls performed so that call-count properties
(zero-call short-circuits, one-extra-fetch pagination boundaries) can be
stated.
-/

namespace JumpCloud

/-- Modelled from the spec: the `UserGroup` attribute payload (the struct
itself is declared outside the embedded files); the spec's data model gives
one attribute, a POSIX group spec string. Its Go zero value is the empty
string. -/
structure UserGroupAttributes where
  posixGroups : String
deriving Repr, DecidableEq

/-- Modelled from the spec: the `UserGroup` record decoded by
`userGroupReadHelper` — identifier, name and attribute map (the member set
is not part of the decoded record; it is fetched separately). Go zero
values are empty strings. -/
structure UserGroup where
  ID : String
  Name : String
  Attributes : UserGroupAttributes
deriving Repr, DecidableEq

/-- One edge of the group-membership graph listing: only the `v.To.Id`
field is consumed by `getUserGroupMemberIDs`. -/
structure GraphConnect where
  toId : String
deriving Repr, DecidableEq

/-- A raw HTTP response as consumed by `userGroupReadHelper`: status code
and body (the body is handed to the JSON decoder). -/
structure HttpResponse where
  statusCode : Nat
  body : String
deriving Repr, DecidableEq

/-- The Terraform resource-state object for the user-group resource: the
identifier plus the three schema fields `name`, `attributes`, `members`. -/
structure ResourceData where
  id : String
  name : String
  attributes : UserGroupAttributes
  members : List String
deriving Repr, DecidableEq

/-- A Go `interface\x7b\x7d` value as it appears in the `members` list:
either a string or some non-string value (the only distinction the
`userEmail.(string)` assertion can observe). -/
inductive GoValue where
  | str (s : String)
  | other
deriving Repr, DecidableEq

/-- Renders a Go `[]string` the way `fmt`'s `%s` verb does, for the error
message of `userIDsToEmails`. -/
def goStringSlice (xs : List String) : String :=
  "[" ++ String.intercalate " " xs ++ "]"

namespace Utils

/-- Pagination loop of `getUserGroupMemberIDs` (utils.go lines 49-76):
page `i` fetches the membership graph with `limit = 100`,
`skip = i * 100`; every edge's `To.Id` is appended; a page shorter than
100 ends the loop. A fetch error is returned as-is: the `fmt.Errorf` line
wrapping it sits below an unconditional `return nil, err` and is
unreachable. Returns the collected IDs together with the number of fetch
calls made; `none` when `fuel` pages were all full. -/
def getUserGroupMemberIDsLoop (fetch : String → Nat → Except String (List GraphConnect))
    (groupID : String) : Nat → Nat → Option (Except String (List String) × Nat)
  | 0, _ => none
  | fuel + 1, i =>
    match fetch groupID (i * 100) with
    | .error e => some (.error e, 1)
    | .ok graphconnect =>
      if graphconnect.length < 100 then
        some (.ok (graphconnect.map GraphConnect.toId), 1)
      else
        match getUserGroupMemberIDsLoop fetch groupID fuel (i + 1) with
        | none => none
        | some (r, n) =>
          match r with
          | .error e => some (.error e, n + 1)
          | .ok rest => some (.ok (graphconnect.map GraphConnect.toId ++ rest), n + 1)

/-- `getUserGroupMemberIDs` (utils.go): runs the pagination loop from page
index 0. -/
def getUserGroupMemberIDs (fetch : String → Nat → Except String (List GraphConnect))
    (groupID : String) (fuel : Nat) : Option (Except String (List String) × Nat) :=
  getUserGroupMemberIDsLoop fetch groupID fuel 0

/-- Pagination loop of `userIDsToEmails` (utils.go lines 78-113): page `i`
queries the systemusers list with the prebuilt `_id:$in:` filter and
`skip = i * 100`, collecting `result.Email` of every result (the `list`
parameter returns the projected email fields). A fetch error is wrapped
naming the ID batch and page index (the trailing `%+v` response dump of the
Go message is abstracted away). -/
def userIDsToEmailsLoop (list : String → Nat → Except String (List String))
    (filter : String) (userIDs : List String) : Nat → Nat → Option (Except String (List String) × Nat)
  | 0, _ => none
  | fuel + 1, i =>
    match list filter (i * 100) with
    | .error e =>
      some (.error ("error loading user emails from IDs: " ++ goStringSlice userIDs ++
        ", i:" ++ toString i ++ ", error:" ++ e), 1)
    | .ok results =>
      if results.length < 100 then
        some (.ok results, 1)
      else
        match userIDsToEmailsLoop list filter userIDs fuel (i + 1) with
        | none => none
        | some (r, n) =>
          match r with
          | .error e => some (.error e, n + 1)
          | .ok rest => some (.ok (results ++ rest), n + 1)

/-- `userIDsToEmails` (utils.go): an empty ID list returns an empty email
list with no error and zero fetch calls; otherwise the pagination loop runs
with the pipe-joined `_id:$in:` filter. -/
def userIDsToEmails (list : String → Nat → Except String (List String))
    (userIDs : List String) (fuel : Nat) : Option (Except String (List String) × Nat) :=
  if userIDs.length = 0 then some (.ok [], 0)
  else userIDsToEmailsLoop list ("_id:$in:" ++ String.intercalate "|" userIDs) userIDs fuel 0

/-- The unchecked `userEmail.(string)` conversion loop at the top of
`userEmailsToIDs` (utils.go lines 116-119): `none` models the run-time
panic raised by the failed type assertion on a non-string element. -/
def assertStrings : List GoValue → Option (List String)
  | [] => some []
  | .str s :: rest => (assertStrings rest).map (fun ss => s :: ss)
  | .other :: _ => none

/-- Pagination loop of `userEmailsToIDs` (utils.go lines 130-152):
symmetric to `userIDsToEmailsLoop`, filtering on `email:$in:` and
collecting `result.Id`; a fetch error is wrapped with the fixed
operation text. -/
def userEmailsToIDsLoop (list : String → Nat → Except String (List String))
    (filter : String) : Nat → Nat → Option (Except String (List String) × Nat)
  | 0, _ => none
  | fuel + 1, i =>
    match list filter (i * 100) with
    | .error e => some (.error ("error loading user IDs from emails:" ++ e), 1)
    | .ok results =>
      if results.length < 100 then
        some (.ok results, 1)
      else
        match userEmailsToIDsLoop list filter fuel (i + 1) with
        | none => none
        | some (r, n) =>
          match r with
          | .error e => some (.error e, n + 1)
          | .ok rest => some (.ok (results ++ rest), n + 1)

/-- `userEmailsToIDs` (utils.go): converts the `interface\x7b\x7d` list to
strings by unchecked assertion, short-circuits an empty email list to an
empty ID list with zero fetch calls, and otherwise pages through the
`email:$in:` filtered user search. -/
def userEmailsToIDs (list : String → Nat → Except String (List String))
    (userEmailsInterface : List GoValue) (fuel : Nat) : Option (Except String (List String) × Nat) :=
  match assertStrings userEmailsInterface with
  | none => none
  | some userEmails =>
    if userEmails.length = 0 then some (.ok [], 0)
    else userEmailsToIDsLoop list ("email:$in:" ++ String.intercalate "|" userEmails) fuel 0

/-- `manageGroupMember` (utils.go lines 157-175): posts one add/remove
membership edge mutation for the group in `d`; on failure the client error
is wrapped naming the action and member id (the trailing `%+v` response
dump of the Go message is abstracted away). -/
def manageGroupMember (post : String → String → String → Except String Unit)
    (groupID memberID action : String) : Except String Unit :=
  match post groupID memberID action with
  | .ok _ => .ok ()
  | .error e =>
    .error ("error managing group member, action: " ++ action ++ ", member id:" ++
      memberID ++ ", error: " ++ e)

end Utils

namespace ResourceUserGroup

/-- Pagination loop of `getUserGroupMemberIDs` (resource_user_group.go
lines 252-279), byte-for-byte the same Go code as the utils.go copy: page
`i` fetches with `limit = 100`, `skip = i * 100`, each edge's `To.Id` is
appended, a short page ends the loop, and a fetch error is returned as-is
(the wrapping `fmt.Errorf` below the unconditional `return nil, err` is
unreachable). -/
def getUserGroupMemberIDsLoop (fetch : String → Nat → Except String (List GraphConnect))
    (groupID : String) : Nat → Nat → Option (Except String (List String) × Nat)
  | 0, _ => none
  | fuel + 1, i =>
    match fetch groupID (i * 100) with
    | .error e => some (.error e, 1)
    | .ok graphconnect =>
      if graphconnect.length < 100 then
        some (.ok (graphconnect.map GraphConnect.toId), 1)
      else
        match getUserGroupMemberIDsLoop fetch groupID fuel (i + 1) with
        | none => none
        | some (r, n) =>
          match r with
          | .error e => some (.error e, n + 1)
          | .ok rest => some (.ok (graphconnect.map GraphConnect.toId ++ rest), n + 1)

/-- `getUserGroupMemberIDs` (resource_user_group.go): runs the pagination
loop from page index 0. -/
def getUserGroupMemberIDs (fetch : String → Nat → Except String (List GraphConnect))
    (groupID : String) (fuel : Nat) : Option (Except String (List String) × Nat) :=
  getUserGroupMemberIDsLoop fetch groupID fuel 0

/-- Pagination loop of `userIDsToEmails` (resource_user_group.go lines
291-313), identical to the utils.go copy. -/
def userIDsToEmailsLoop (list : String → Nat → Except String (List String))
    (filter : String) (userIDs : List String) : Nat → Nat → Option (Except String (List String) × Nat)
  | 0, _ => none
  | fuel + 1, i =>
    match list filter (i * 100) with
    | .error e =>
      some (.error ("error loading user emails from IDs: " ++ goStringSlice userIDs ++
        ", i:" ++ toString i ++ ", error:" ++ e), 1)
    | .ok results =>
      if results.length < 100 then
        some (.ok results, 1)
      else
        match userIDsToEmailsLoop list filter userIDs fuel (i + 1) with
        | none => none
        | some (r, n) =>
          match r with
          | .error e => some (.error e, n + 1)
          | .ok rest => some (.ok (results ++ rest), n + 1)

/-- `userIDsToEmails` (resource_user_group.go lines 281-316), identical to
the utils.go copy. -/
def userIDsToEmails (list : String → Nat → Except String (List String))
    (userIDs : List String) (fuel : Nat) : Option (Except String (List String) × Nat) :=
  if userIDs.length = 0 then some (.ok [], 0)
  else userIDsToEmailsLoop list ("_id:$in:" ++ String.intercalate "|" userIDs) userIDs fuel 0

/-- The `userEmail.(string)` conversion loop of `userEmailsToIDs`
(resource_user_group.go lines 319-322), identical to the utils.go copy. -/
def assertStrings : List GoValue → Option (List String)
  | [] => some []
  | .str s :: rest => (assertStrings rest).map (fun ss => s :: ss)
  | .other :: _ => none

/-- Pagination loop of `userEmailsToIDs` (resource_user_group.go lines
333-355), identical to the utils.go copy. -/
def userEmailsToIDsLoop (list : String → Nat → Except String (List String))
    (filter : String) : Nat → Nat → Option (Except String (List String) × Nat)
  | 0, _ => none
  | fuel + 1, i =>
    match list filter (i * 100) with
    | .error e => some (.error ("error loading user IDs from emails:" ++ e), 1)
    | .ok results =>
      if results.length < 100 then
        some (.ok results, 1)
      else
        match userEmailsToIDsLoop list filter fuel (i + 1) with
        | none => none
        | some (r, n) =>
          match r with
          | .error e => some (.error e, n + 1)
          | .ok rest => some (.ok (results ++ rest), n + 1)

/-- `userEmailsToIDs` (resource_user_group.go lines 318-358), identical to
the utils.go copy. -/
def userEmailsToIDs (list : String → Nat → Except String (List String))
    (userEmailsInterface : List GoValue) (fuel : Nat) : Option (Except String (List String) × Nat) :=
  match assertStrings userEmailsInterface with
  | none => none
  | some userEmails =>
    if userEmails.length = 0 then some (.ok [], 0)
    else userEmailsToIDsLoop list ("email:$in:" ++ String.intercalate "|" userEmails) fuel 0

/-- `manageGroupMember` (resource_user_group.go lines 360-378), identical
to the utils.go copy. -/
def manageGroupMember (post : String → String → String → Except String Unit)
    (groupID memberID action : String) : Except String Unit :=
  match post groupID memberID action with
  | .ok _ => .ok ()
  | .error e =>
    .error ("error managing group member, action: " ++ action ++ ", member id:" ++
      memberID ++ ", error: " ++ e)

/-- Result triple of `userGroupReadHelper`: the decoded group pointer, the
`ok` flag and the `error` return value. -/
structure ReadHelperOut where
  ug : Option UserGroup
  ok : Bool
  err : Option String
deriving Repr, DecidableEq

/-- `userGroupReadHelper` (resource_user_group.go lines 151-180):
`doResult` stands for the combined outcome of building and executing the
raw HTTP GET (an early error returns the nil group, `ok = false` and the
error); a 404 status returns the nil group, `ok = false` and no error;
otherwise `ok` is set to true and the body is JSON-decoded into the group
pointer, a decode failure leaving the pointer nil and surfacing the decode
error. -/
def userGroupReadHelper (doResult : Except String HttpResponse)
    (decode : String → Except String UserGroup) : ReadHelperOut :=
  match doResult with
  | .error e => ⟨none, false, some e⟩
  | .ok res =>
    if res.statusCode = 404 then ⟨none, false, none⟩
    else
      match decode res.body with
      | .ok ug => ⟨some ug, true, none⟩
      | .error e => ⟨none, true, some e⟩

/-- `resourceUserGroupRead` (resource_user_group.go lines 113-149) acting
on the resource state `d`: a helper error is returned with `d` untouched;
`ok = false` clears the identifier and returns no error; otherwise the
identifier, name and attributes are copied from the decoded group and the
member emails (the composed outcome of `getUserGroupMemberIDs` and
`userIDsToEmails`, abstracted as `memberEmails`) fill the `members`
field, an error there being returned after the identity fields were
already set. The `ug = none` with `ok = true`, `err = none` case cannot
arise from `userGroupReadHelper` as embedded; it is mapped to the
untouched state. -/
def resourceUserGroupRead (h : ReadHelperOut)
    (memberEmails : Except String (List String)) (d : ResourceData) : ResourceData × Option String :=
  match h.err with
  | some e => (d, some e)
  | none =>
    if h.ok = false then ({ d with id := "" }, none)
    else
      match h.ug with
      | none => (d, none)
      | some group =>
        let d1 : ResourceData :=
          { d with id := group.ID, name := group.Name, attributes := group.Attributes }
        match memberEmails with
        | .error e => (d1, some e)
        | .ok emails => ({ d1 with members := emails }, none)

/-- The add loop of `resourceUserGroupUpdate` (resource_user_group.go
lines 216-223): every `newMemberID` not contained in `oldMemberIDs`
triggers one `manageGroupMember ... "add"` call; the first error ends the
pass. Returns the trace of (memberID, action) mutation calls performed,
in order, with the error that stopped the loop, if any. -/
def updateAddLoop (post : String → String → String → Except String Unit)
    (groupID : String) (oldMemberIDs : List String) :
    List String → List (String × String) × Option String
  | [] => ([], none)
  | newMemberID :: rest =>
    if !(oldMemberIDs.contains newMemberID) then
      match manageGroupMember post groupID newMemberID "add" with
      | .error e => ([(newMemberID, "add")], some e)
      | .ok _ =>
        let r := updateAddLoop post groupID oldMemberIDs rest
        ((newMemberID, "add") :: r.1, r.2)
    else updateAddLoop post groupID oldMemberIDs rest

/-- The remove loop of `resourceUserGroupUpdate` (resource_user_group.go
lines 226-233): every `oldMemberID` not contained in `newMemberIDs`
triggers one `manageGroupMember ... "remove"` call; the first error ends
the pass. -/
def updateRemoveLoop (post : String → String → String → Except String Unit)
    (groupID : String) (newMemberIDs : List String) :
    List String → List (String × String) × Option String
  | [] => ([], none)
  | oldMemberID :: rest =>
    if !(newMemberIDs.contains oldMemberID) then
      match manageGroupMember post groupID oldMemberID "remove" with
      | .error e => ([(oldMemberID, "remove")], some e)
      | .ok _ =>
        let r := updateRemoveLoop post groupID newMemberIDs rest
        ((oldMemberID, "remove") :: r.1, r.2)
    else updateRemoveLoop post groupID newMemberIDs rest

/-- The membership-reconciliation pass of `resourceUserGroupUpdate`: the
add loop over `newMemberIDs` runs first and an error there skips the
remove loop over `oldMemberIDs`; the performed mutation calls are traced
in order. -/
def updateMembersPass (post : String → String → String → Except String Unit)
    (groupID : String) (oldMemberIDs newMemberIDs : List String) :
    List (String × String) × Option String :=
  match updateAddLoop post groupID oldMemberIDs newMemberIDs with
  | (trace, some e) => (trace, some e)
  | (trace, none) =>
    let r := updateRemoveLoop post groupID newMemberIDs oldMemberIDs
    (trace ++ r.1, r.2)

end ResourceUserGroup

/-- The spec's `toAdd = newMemberIDs \ oldMemberIDs`, computed by
set-membership check in `newMemberIDs` iteration order. -/
def toAdd (oldMemberIDs newMemberIDs : List String) : List String :=
  newMemberIDs.filter (fun x => !(oldMemberIDs.contains x))

/-- The spec's `toRemove = oldMemberIDs \ newMemberIDs`, computed by
set-membership check in `oldMemberIDs` iteration order. -/
def toRemove (oldMemberIDs newMemberIDs : List String) : List String :=
  oldMemberIDs.filter (fun x => !(newMemberIDs.contains x))

/-- The full mutation list of one reconciliation pass: the adds, in
`newMemberIDs` order, followed by the removes, in `oldMemberIDs` order. -/
def updateMuts (oldMemberIDs newMemberIDs : List String) : List (String × String) :=
  (toAdd oldMemberIDs newMemberIDs).map (fun x => (x, "add")) ++
    (toRemove oldMemberIDs newMemberIDs).map (fun x => (x, "remove"))

/-- A first-error mutation pass over a list of (memberID, action) pairs:
each pair is posted through `call`; the trace of performed calls is
returned, the first error stopping the pass. `updateMembersPass` is shown
to coincide with this pass over `updateMuts`. -/
def runPass (call : String × String → Except String Unit) :
    List (String × String) → List (String × String) × Option String
  | [] => ([], none)
  | m :: rest =>
    match call m with
    | .error e => ([m], some e)
    | .ok _ =>
      let r := runPass call rest
      (m :: r.1, r.2)

/-- An application record as consumed by the lookup data source: only
`Id`, `DisplayName` and `DisplayLabel` are read. -/
structure Application where
  Id : String
  DisplayName : String
  DisplayLabel : String
deriving Repr, DecidableEq

/-- `dataSourceJumpCloudApplicationRead`
(data_source_jumpcloud_application.go lines 33-62): `name` and
`displayLabel` are the `GetOk` results for the two filters (`none` when
unset); with neither present a validation error is returned before any
listing call; otherwise the applications list is fetched once and the
first application matching either provided filter sets the identifier
(returned in `.ok`), a listing error being passed through unwrapped and an
empty match yielding the fixed not-found error. The second component
counts the listing calls issued. -/
def dataSourceJumpCloudApplicationRead (listApps : Unit → Except String (List Application))
    (name displayLabel : Option String) : Except String String × Nat :=
  if name.isNone && displayLabel.isNone then
    (.error "either name or display_label must be provided", 0)
  else
    match listApps () with
    | .error e => (.error e, 1)
    | .ok apps =>
      match apps.find? (fun a =>
          (name.isSome && a.DisplayName == name.getD "") ||
          (displayLabel.isSome && a.DisplayLabel == displayLabel.getD "")) with
      | some application => (.ok application.Id, 1)
      | none => (.error "no application found with the provided filters", 1)

/-! ### Helper lemmas for the membership-reconciliation pass -/

lemma runPass_all_ok (call : String × String → Except String Unit)
    (L : List (String × String)) (h : ∀ m ∈ L, call m = .ok ()) :
    runPass call L = (L, none) := by
  induction L with
  | nil => rfl
  | cons m rest ih =>
    have hm := h m (by simp)
    simp [runPass, hm, ih (fun p hp => h p (by simp [hp]))]

lemma runPass_first_err (call : String × String → Except String Unit)
    (pre suf : List (String × String)) (m : String × String) (e : String)
    (hpre : ∀ p ∈ pre, call p = .ok ()) (hm : call m = .error e) :
    runPass call (pre ++ m :: suf) = (pre ++ [m], some e) := by
  induction pre with
  | nil => simp [runPass, hm]
  | cons p rest ih =>
    have hp := hpre p (by simp)
    simp [runPass, hp, ih (fun q hq => hpre q (by simp [hq]))]

lemma updateAddLoop_eq_runPass (post : String → String → String → Except String Unit)
    (groupID : String) (old : List String) (new : List String) :
    ResourceUserGroup.updateAddLoop post groupID old new =
      runPass (fun m => ResourceUserGroup.manageGroupMember post groupID m.1 m.2)
        ((toAdd old new).map (fun x => (x, "add"))) := by
  induction new with
  | nil => rfl
  | cons x rest ih =>
    by_cases hc : x ∈ old
    · simp_all [ResourceUserGroup.updateAddLoop, toAdd, List.filter_cons]
    · simp only [ResourceUserGroup.updateAddLoop, toAdd, List.filter_cons] at ih ⊢
      cases hmg : ResourceUserGroup.manageGroupMember post groupID x "add" with
      | error e => simp [runPass, hmg, hc]
      | ok u => cases u; simp [runPass, hmg, hc, ih]

lemma updateRemoveLoop_eq_runPass (post : String → String → String → Except String Unit)
    (groupID : String) (old : List String) (new : List String) :
    ResourceUserGroup.updateRemoveLoop post groupID new old =
      runPass (fun m => ResourceUserGroup.manageGroupMember post groupID m.1 m.2)
        ((toRemove old new).map (fun x => (x, "remove"))) := by
  induction old with
  | nil => rfl
  | cons x rest ih =>
    by_cases hc : x ∈ new
    · simp_all [ResourceUserGroup.updateRemoveLoop, toRemove, List.filter_cons]
    · simp only [ResourceUserGroup.updateRemoveLoop, toRemove, List.filter_cons] at ih ⊢
      cases hmg : ResourceUserGroup.manageGroupMember post groupID x "remove" with
      | error e => simp [runPass, hmg, hc]
      | ok u => cases u; simp [runPass, hmg, hc, ih]

lemma runPass_append (call : String × String → Except String Unit)
    (A B : List (String × String)) :
    runPass call (A ++ B) =
      match runPass call A with
      | (t, some e) => (t, some e)
      | (t, none) => (t ++ (runPass call B).1, (runPass call B).2) := by
  induction A with
  | nil => simp [runPass]
  | cons m rest ih =>
    cases hc : call m with
    | error e => simp [runPass, hc]
    | ok u =>
      cases u
      simp only [List.cons_append, runPass, hc, List.append_eq]
      rw [ih]
      cases hr : runPass call rest with
      | mk t oe => cases oe <;> simp

lemma updateMembersPass_eq_runPass (post : String → String → String → Except String Unit)
    (groupID : String) (old new : List String) :
    ResourceUserGroup.updateMembersPass post groupID old new =
      runPass (fun m => ResourceUserGroup.manageGroupMember post groupID m.1 m.2)
        (updateMuts old new) := by
  rw [updateMuts, runPass_append, ResourceUserGroup.updateMembersPass,
    updateAddLoop_eq_runPass, updateRemoveLoop_eq_runPass]

lemma toAdd_eq_nil (old new : List String) (h : ∀ x ∈ new, x ∈ old) :
    toAdd old new = [] := by
  apply List.filter_eq_nil_iff.mpr
  intro a ha
  simp [h a ha]

lemma toRemove_eq_nil (old new : List String) (h : ∀ x ∈ old, x ∈ new) :
    toRemove old new = [] := by
  apply List.filter_eq_nil_iff.mpr
  intro a ha
  simp [h a ha]

/-! ### C1 -/

/-- C1: the update path's reconciliation computes the adds as
`toAdd = newMemberIDs \ oldMemberIDs` in `newMemberIDs` iteration order
and the removes as `toRemove = oldMemberIDs \ newMemberIDs` in
`oldMemberIDs` iteration order (first conjunct: the performed mutation
trace is exactly those two sequences); consequently, for equal-as-sets
old and new membership lists both sequences are empty and a pass issues
no add and no remove mutation (second conjunct: idempotence). -/
theorem membership_differ_diff_formula_and_idempotence
    (post : String → String → String → Except String Unit) (groupID : String)
    (oldMemberIDs newMemberIDs : List String) :
    ((∀ g m a, post g m a = .ok ()) →
      ResourceUserGroup.updateMembersPass post groupID oldMemberIDs newMemberIDs =
        ((toAdd oldMemberIDs newMemberIDs).map (fun x => (x, "add")) ++
          (toRemove oldMemberIDs newMemberIDs).map (fun x => (x, "remove")), none)) ∧
    ((∀ x : String, x ∈ oldMemberIDs ↔ x ∈ newMemberIDs) →
      ResourceUserGroup.updateMembersPass post groupID oldMemberIDs newMemberIDs =
        ([], none)) := by
  constructor
  · intro hpost
    rw [updateMembersPass_eq_runPass]
    have := runPass_all_ok
      (fun m => ResourceUserGroup.manageGroupMember post groupID m.1 m.2)
      (updateMuts oldMemberIDs newMemberIDs)
      (fun m _ => by simp [ResourceUserGroup.manageGroupMember, hpost])
    rw [this, updateMuts]
  · intro hset
    rw [updateMembersPass_eq_runPass, updateMuts,
      toAdd_eq_nil _ _ (fun x hx => (hset x).mpr hx),
      toRemove_eq_nil _ _ (fun x hx => (hset x).mp hx)]
    rfl

/-- Witness for C1 at concrete inputs: one changed pair of lists and one
pair equal as sets. -/
theorem membership_differ_diff_formula_and_idempotence_witness :
    ResourceUserGroup.updateMembersPass (fun _ _ _ => .ok ()) "gid" ["u1", "u2"] ["u2", "u3"] =
      ((toAdd ["u1", "u2"] ["u2", "u3"]).map (fun x => (x, "add")) ++
        (toRemove ["u1", "u2"] ["u2", "u3"]).map (fun x => (x, "remove")), none) ∧
    ResourceUserGroup.updateMembersPass (fun _ _ _ => .ok ()) "gid" ["u1", "u2"] ["u2", "u1"] =
      ([], none) := by
  constructor
  · exact (membership_differ_diff_formula_and_idempotence _ "gid" _ _).1 (fun _ _ _ => rfl)
  · exact (membership_differ_diff_formula_and_idempotence _ "gid" _ _).2
      (by intro x; constructor <;> (intro h; simp only [List.mem_cons] at h ⊢; tauto))

/-! ### C5 -/

/-- C5: over duplicate-free membership lists the reconciliation pass posts
one mutation per diffed member: the mutation list is duplicate-free (first
conjunct) and, when every call succeeds, the performed trace is exactly
that list (second conjunct); when the first failing call is at mutation
`m` after the successful ones in `pre`, the pass performs exactly
`pre ++ [m]` — the earlier mutations stay applied, nothing after `m` runs
— and returns the wrapped error of `m` immediately (third conjunct). -/
theorem update_pass_one_call_per_member_and_first_error_halts
    (post : String → String → String → Except String Unit) (groupID : String)
    (oldMemberIDs newMemberIDs : List String)
    (hold : oldMemberIDs.Nodup) (hnew : newMemberIDs.Nodup) :
    (updateMuts oldMemberIDs newMemberIDs).Nodup ∧
    ((∀ m ∈ updateMuts oldMemberIDs newMemberIDs, post groupID m.1 m.2 = .ok ()) →
      ResourceUserGroup.updateMembersPass post groupID oldMemberIDs newMemberIDs =
        (updateMuts oldMemberIDs newMemberIDs, none)) ∧
    (∀ pre m suf e, updateMuts oldMemberIDs newMemberIDs = pre ++ m :: suf →
      (∀ p ∈ pre, post groupID p.1 p.2 = .ok ()) →
      post groupID m.1 m.2 = .error e →
      ResourceUserGroup.updateMembersPass post groupID oldMemberIDs newMemberIDs =
        (pre ++ [m],
          some ("error managing group member, action: " ++ m.2 ++ ", member id:" ++
            m.1 ++ ", error: " ++ e))) := by
  refine ⟨?_, ?_, ?_⟩
  · have h1 : ((toAdd oldMemberIDs newMemberIDs).map (fun x => (x, "add"))).Nodup :=
      List.Nodup.map (fun a b hab => congrArg Prod.fst hab) (hnew.filter _)
    have h2 : ((toRemove oldMemberIDs newMemberIDs).map (fun x => (x, "remove"))).Nodup :=
      List.Nodup.map (fun a b hab => congrArg Prod.fst hab) (hold.filter _)
    have hdisj : ((toAdd oldMemberIDs newMemberIDs).map (fun x => (x, "add"))).Disjoint
        ((toRemove oldMemberIDs newMemberIDs).map (fun x => (x, "remove"))) := by
      intro a ha hb
      simp only [List.mem_map] at ha hb
      obtain ⟨x, _, rfl⟩ := ha
      obtain ⟨y, _, hy⟩ := hb
      exact absurd (congrArg Prod.snd hy) (by simp)
    rw [updateMuts]
    exact h1.append h2 hdisj
  · intro h
    rw [updateMembersPass_eq_runPass]
    exact runPass_all_ok _ _
      (fun m hm => by simp [ResourceUserGroup.manageGroupMember, h m hm])
  · intro pre m suf e hsplit hpre hm
    rw [updateMembersPass_eq_runPass, hsplit]
    exact runPass_first_err _ _ _ _ _
      (fun p hp => by simp [ResourceUserGroup.manageGroupMember, hpre p hp])
      (by simp [ResourceUserGroup.manageGroupMember, hm])

/-- Witness for C5 at concrete inputs: an all-success pass and a pass whose
remove call fails after a successful add. -/
theorem update_pass_one_call_per_member_and_first_error_halts_witness :
    (updateMuts ["u1"] ["u2"]).Nodup ∧
    ResourceUserGroup.updateMembersPass (fun _ _ _ => .ok ()) "gid" ["u1"] ["u2"] =
      (updateMuts ["u1"] ["u2"], none) ∧
    ResourceUserGroup.updateMembersPass
        (fun _ mid _ => if mid = "u2" then .ok () else .error "boom") "gid" ["u1"] ["u2"] =
      ([("u2", "add")] ++ [("u1", "remove")],
        some ("error managing group member, action: " ++ "remove" ++ ", member id:" ++
          "u1" ++ ", error: " ++ "boom")) := by
  refine ⟨?_, ?_, ?_⟩
  · exact (update_pass_one_call_per_member_and_first_error_halts
      (fun _ _ _ => .ok ()) "gid" ["u1"] ["u2"] (by simp) (by simp)).1
  · exact (update_pass_one_call_per_member_and_first_error_halts
      (fun _ _ _ => .ok ()) "gid" ["u1"] ["u2"] (by simp) (by simp)).2.1 (fun _ _ => rfl)
  · exact (update_pass_one_call_per_member_and_first_error_halts
      (fun _ mid _ => if mid = "u2" then .ok () else .error "boom") "gid" ["u1"] ["u2"]
      (by simp) (by simp)).2.2 [("u2", "add")] ("u1", "remove") [] "boom" rfl
      (by intro p hp; simp only [List.mem_singleton] at hp; subst hp; rfl) rfl

/-! ### Pagination lemmas for the member listing loop -/

lemma getUserGroupMemberIDsLoop_ok_spec (fetch : String → Nat → Except String (List GraphConnect))
    (groupID : String) (pages : Nat → List GraphConnect)
    (hfetch : ∀ i, fetch groupID (i * 100) = .ok (pages i)) :
    ∀ k j fuel, (∀ m, m < k → (pages (j + m)).length = 100) →
      (pages (j + k)).length < 100 → k < fuel →
      ResourceUserGroup.getUserGroupMemberIDsLoop fetch groupID fuel j =
        some (.ok (((List.range (k + 1)).map
          (fun m => (pages (j + m)).map GraphConnect.toId)).flatten), k + 1) := by
  intro k
  induction k with
  | zero =>
    intro j fuel hfull hshort hfuel
    cases fuel with
    | zero => omega
    | succ f =>
      simp only [Nat.add_zero] at hshort
      simp [ResourceUserGroup.getUserGroupMemberIDsLoop, hfetch j, hshort,
        show List.range 1 = [0] from rfl]
  | succ k ih =>
    intro j fuel hfull hshort hfuel
    cases fuel with
    | zero => omega
    | succ f =>
      have hfj : (pages j).length = 100 := by
        have := hfull 0 (by omega)
        simpa using this
      have hrec := ih (j + 1) f
        (fun m hm => by
          have h := hfull (m + 1) (by omega)
          rwa [show j + (m + 1) = j + 1 + m by omega] at h)
        (by rwa [show j + 1 + k = j + (k + 1) by omega])
        (by omega)
      have hlist : ((List.range (k + 1 + 1)).map
          (fun m => (pages (j + m)).map GraphConnect.toId)).flatten =
          (pages j).map GraphConnect.toId ++
            ((List.range (k + 1)).map
              (fun m => (pages (j + 1 + m)).map GraphConnect.toId)).flatten := by
        rw [List.range_succ_eq_map]
        simp only [List.map_cons, List.map_map, List.flatten_cons, Nat.add_zero]
        congr 2
        apply List.map_eq_map_iff.mpr
        intro m _
        simp only [Function.comp_apply]
        rw [show j + Nat.succ m = j + 1 + m by omega]
      simp only [ResourceUserGroup.getUserGroupMemberIDsLoop, hfetch j, hrec, hlist]
      rw [if_neg (by omega)]

lemma getUserGroupMemberIDsLoop_err_spec (fetch : String → Nat → Except String (List GraphConnect))
    (groupID : String) (pages : Nat → List GraphConnect) (e : String) :
    ∀ k j fuel, (∀ m, m < k → fetch groupID ((j + m) * 100) = .ok (pages (j + m))) →
      (∀ m, m < k → (pages (j + m)).length = 100) →
      fetch groupID ((j + k) * 100) = .error e → k < fuel →
      ResourceUserGroup.getUserGroupMemberIDsLoop fetch groupID fuel j =
        some (.error e, k + 1) := by
  intro k
  induction k with
  | zero =>
    intro j fuel hok hfull herr hfuel
    cases fuel with
    | zero => omega
    | succ f =>
      simp only [Nat.add_zero] at herr
      simp [ResourceUserGroup.getUserGroupMemberIDsLoop, herr]
  | succ k ih =>
    intro j fuel hok hfull herr hfuel
    cases fuel with
    | zero => omega
    | succ f =>
      have hfj : fetch groupID (j * 100) = .ok (pages j) := by
        have := hok 0 (by omega)
        simpa using this
      have hlj : (pages j).length = 100 := by
        have := hfull 0 (by omega)
        simpa using this
      have hrec := ih (j + 1) f
        (fun m hm => by
          have h := hok (m + 1) (by omega)
          rwa [show j + (m + 1) = j + 1 + m by omega] at h)
        (fun m hm => by
          have h := hfull (m + 1) (by omega)
          rwa [show j + (m + 1) = j + 1 + m by omega] at h)
        (by rwa [show j + 1 + k = j + (k + 1) by omega])
        (by omega)
      simp only [ResourceUserGroup.getUserGroupMemberIDsLoop, hfj, hrec]
      rw [if_neg (by omega)]

/-! ### C2 -/

/-- C2: with the remote serving page `i` of the membership graph as
`pages i`, where pages before `n` are full (100 items) and page `n` is the
first short page, the paginated lister returns the in-order concatenation
of the `To.Id` projections of pages `0..n` and performs exactly `n + 1`
fetches, i.e. it stops right after the first short page (first
conjunct); when the last non-empty page was full, so that page `n` is
empty, the lister's result is the concatenation of the full pages
`0..n-1` and the count still includes the one extra fetch that returned
the empty page (second conjunct). -/
theorem paginated_lister_concatenates_and_stops_on_short_page
    (fetch : String → Nat → Except String (List GraphConnect)) (groupID : String)
    (pages : Nat → List GraphConnect) (n fuel : Nat)
    (hfetch : ∀ i, fetch groupID (i * 100) = .ok (pages i))
    (hfull : ∀ i, i < n → (pages i).length = 100)
    (hshort : (pages n).length < 100) (hfuel : n < fuel) :
    ResourceUserGroup.getUserGroupMemberIDs fetch groupID fuel =
      some (.ok (((List.range (n + 1)).map
        (fun i => (pages i).map GraphConnect.toId)).flatten), n + 1) ∧
    (pages n = [] →
      ResourceUserGroup.getUserGroupMemberIDs fetch groupID fuel =
        some (.ok (((List.range n).map
          (fun i => (pages i).map GraphConnect.toId)).flatten), n + 1)) := by
  have h := getUserGroupMemberIDsLoop_ok_spec fetch groupID pages hfetch n 0 fuel
    (fun m hm => by simpa using hfull m hm) (by simpa using hshort) hfuel
  have h0 : ResourceUserGroup.getUserGroupMemberIDs fetch groupID fuel =
      some (.ok (((List.range (n + 1)).map
        (fun i => (pages i).map GraphConnect.toId)).flatten), n + 1) := by
    rw [ResourceUserGroup.getUserGroupMemberIDs, h]
    simp
  refine ⟨h0, fun hnil => ?_⟩
  rw [h0, List.range_succ]
  simp [hnil]

/-- Witness for C2: one full page of 100 edges followed by an empty page;
the lister returns the 100 IDs with exactly 2 fetches. -/
theorem paginated_lister_concatenates_and_stops_on_short_page_witness :
    ResourceUserGroup.getUserGroupMemberIDs
        (fun _ s => .ok (if s = 0 then List.replicate 100 ⟨"x"⟩ else [])) "gid" 2 =
      some (.ok (((List.range 2).map (fun i =>
        ((if i = 0 then List.replicate 100 (⟨"x"⟩ : GraphConnect) else []).map
          GraphConnect.toId))).flatten), 2) ∧
    ResourceUserGroup.getUserGroupMemberIDs
        (fun _ s => .ok (if s = 0 then List.replicate 100 ⟨"x"⟩ else [])) "gid" 2 =
      some (.ok (((List.range 1).map (fun i =>
        ((if i = 0 then List.replicate 100 (⟨"x"⟩ : GraphConnect) else []).map
          GraphConnect.toId))).flatten), 2) := by
  have h := paginated_lister_concatenates_and_stops_on_short_page
    (fun _ s => .ok (if s = 0 then List.replicate 100 ⟨"x"⟩ else [])) "gid"
    (fun i => if i = 0 then List.replicate 100 ⟨"x"⟩ else []) 1 2
    (by intro i; cases i <;> simp [Nat.mul_eq_zero])
    (by intro i hi; have hz : i = 0 := by omega
        subst hz; simp)
    (by simp) (by omega)
  exact ⟨h.1, h.2 (by simp)⟩

/-! ### Equality of the utils.go and resource_user_group.go copies -/

lemma memberIDsLoop_copies_eq (fetch : String → Nat → Except String (List GraphConnect))
    (groupID : String) : ∀ fuel i,
    Utils.getUserGroupMemberIDsLoop fetch groupID fuel i =
      ResourceUserGroup.getUserGroupMemberIDsLoop fetch groupID fuel i := by
  intro fuel
  induction fuel with
  | zero => intro i; rfl
  | succ f ih =>
    intro i
    simp only [Utils.getUserGroupMemberIDsLoop, ResourceUserGroup.getUserGroupMemberIDsLoop]
    rw [ih]

lemma userIDsToEmailsLoop_copies_eq (list : String → Nat → Except String (List String))
    (filter : String) (userIDs : List String) : ∀ fuel i,
    Utils.userIDsToEmailsLoop list filter userIDs fuel i =
      ResourceUserGroup.userIDsToEmailsLoop list filter userIDs fuel i := by
  intro fuel
  induction fuel with
  | zero => intro i; rfl
  | succ f ih =>
    intro i
    simp only [Utils.userIDsToEmailsLoop, ResourceUserGroup.userIDsToEmailsLoop]
    rw [ih]

lemma userEmailsToIDsLoop_copies_eq (list : String → Nat → Except String (List String))
    (filter : String) : ∀ fuel i,
    Utils.userEmailsToIDsLoop list filter fuel i =
      ResourceUserGroup.userEmailsToIDsLoop list filter fuel i := by
  intro fuel
  induction fuel with
  | zero => intro i; rfl
  | succ f ih =>
    intro i
    simp only [Utils.userEmailsToIDsLoop, ResourceUserGroup.userEmailsToIDsLoop]
    rw [ih]

lemma assertStrings_copies_eq : ∀ l : List GoValue,
    Utils.assertStrings l = ResourceUserGroup.assertStrings l := by
  intro l
  induction l with
  | nil => rfl
  | cons v rest ih =>
    cases v with
    | str s => simp [Utils.assertStrings, ResourceUserGroup.assertStrings, ih]
    | other => rfl

/-! ### C3 -/

/-- Character-list helper: does `needle` occur at the head of `hay`? -/
def startsAt : List Char → List Char → Bool
  | [], _ => true
  | _ :: _, [] => false
  | a :: as, b :: bs => a == b && startsAt as bs

/-- Character-list helper: does `needle` occur anywhere inside `hay`?
Used to state that a returned error message does not carry an ID. -/
def containsSub (needle : List Char) : List Char → Bool
  | [] => needle.isEmpty
  | c :: rest => startsAt needle (c :: rest) || containsSub needle rest

/-- C3 counterexample: with the underlying client failing with
"connection refused" on the first page fetched for group "5f0c1b2", the
group-member listing returns that client error verbatim after one fetch,
and the group ID occurs nowhere in the returned error text — the claimed
wrapping with operation context and IDs does not happen, the `fmt.Errorf`
line being unreachable behind `return nil, err`. -/
theorem member_listing_error_verbatim_counterexample :
    ResourceUserGroup.getUserGroupMemberIDs (fun _ _ => .error "connection refused")
        "5f0c1b2" 1 = some (.error "connection refused", 1) ∧
    containsSub "5f0c1b2".toList "connection refused".toList = false := by
  exact ⟨rfl, rfl⟩

/-- C3 amended: errors of the membership mutation call `manageGroupMember`
(and of the translator loops) are wrapped with operation context and IDs,
but the group-member listing loop is the exception: when the fetch of page
`n` fails after `n` full pages, both copies of `getUserGroupMemberIDs`
return the underlying client error verbatim, the wrapping line below the
unconditional `return nil, err` being dead code. -/
theorem api_errors_wrapped_except_member_listing
    (fetch : String → Nat → Except String (List GraphConnect)) (groupID : String)
    (pages : Nat → List GraphConnect) (e : String) (n fuel : Nat)
    (hok : ∀ m, m < n → fetch groupID (m * 100) = .ok (pages m))
    (hfull : ∀ m, m < n → (pages m).length = 100)
    (herr : fetch groupID (n * 100) = .error e) (hfuel : n < fuel) :
    ResourceUserGroup.getUserGroupMemberIDs fetch groupID fuel = some (.error e, n + 1) ∧
    Utils.getUserGroupMemberIDs fetch groupID fuel = some (.error e, n + 1) ∧
    (∀ post g mid act ce, post g mid act = .error ce →
      Utils.manageGroupMember post g mid act =
        .error ("error managing group member, action: " ++ act ++ ", member id:" ++
          mid ++ ", error: " ++ ce)) := by
  have h := getUserGroupMemberIDsLoop_err_spec fetch groupID pages e n 0 fuel
    (fun m hm => by simpa using hok m hm) (fun m hm => by simpa using hfull m hm)
    (by simpa using herr) hfuel
  refine ⟨by rw [ResourceUserGroup.getUserGroupMemberIDs, h], ?_, ?_⟩
  · rw [Utils.getUserGroupMemberIDs, memberIDsLoop_copies_eq, h]
  · intro post g mid act ce hce
    simp [Utils.manageGroupMember, hce]

/-- Witness for the amended C3: a fetch that fails immediately and a post
that fails, at concrete inputs. -/
theorem api_errors_wrapped_except_member_listing_witness :
    ResourceUserGroup.getUserGroupMemberIDs (fun _ _ => .error "net down") "g1" 1 =
      some (.error "net down", 1) ∧
    Utils.getUserGroupMemberIDs (fun _ _ => .error "net down") "g1" 1 =
      some (.error "net down", 1) ∧
    Utils.manageGroupMember (fun _ _ _ => .error "net down") "g1" "m1" "add" =
      .error ("error managing group member, action: " ++ "add" ++ ", member id:" ++
        "m1" ++ ", error: " ++ "net down") := by
  have h := api_errors_wrapped_except_member_listing (fun _ _ => .error "net down") "g1"
    (fun _ => []) "net down" 0 1
    (by intro m hm; exact absurd hm (Nat.not_lt_zero m))
    (by intro m hm; exact absurd hm (Nat.not_lt_zero m)) rfl (by omega)
  exact ⟨h.1, h.2.1, h.2.2 _ "g1" "m1" "add" "net down" rfl⟩

/-! ### C9 -/

/-- C9: the four helpers defined both in utils.go and in
resource_user_group.go — `getUserGroupMemberIDs`, `userIDsToEmails`,
`userEmailsToIDs`, `manageGroupMember` — are extensionally equal copy for
copy: for every remote behaviour and input they return the same result
and perform the same number of remote calls. -/
theorem duplicated_helpers_extensionally_equal :
    (∀ fetch groupID fuel, Utils.getUserGroupMemberIDs fetch groupID fuel =
      ResourceUserGroup.getUserGroupMemberIDs fetch groupID fuel) ∧
    (∀ list userIDs fuel, Utils.userIDsToEmails list userIDs fuel =
      ResourceUserGroup.userIDsToEmails list userIDs fuel) ∧
    (∀ list emails fuel, Utils.userEmailsToIDs list emails fuel =
      ResourceUserGroup.userEmailsToIDs list emails fuel) ∧
    (∀ post groupID memberID action,
      Utils.manageGroupMember post groupID memberID action =
        ResourceUserGroup.manageGroupMember post groupID memberID action) := by
  refine ⟨?_, ?_, ?_, ?_⟩
  · intro fetch groupID fuel
    rw [Utils.getUserGroupMemberIDs, ResourceUserGroup.getUserGroupMemberIDs,
      memberIDsLoop_copies_eq]
  · intro list userIDs fuel
    rw [Utils.userIDsToEmails, ResourceUserGroup.userIDsToEmails]
    by_cases h : userIDs.length = 0
    · simp [h]
    · simp [h, userIDsToEmailsLoop_copies_eq]
  · intro list emails fuel
    rw [Utils.userEmailsToIDs, ResourceUserGroup.userEmailsToIDs, assertStrings_copies_eq]
    cases ResourceUserGroup.assertStrings emails with
    | none => rfl
    | some userEmails =>
      by_cases h : userEmails.length = 0
      · simp [h]
      · simp [h, userEmailsToIDsLoop_copies_eq]
  · intro post groupID memberID action
    rfl

/-! ### C4 -/

/-- C4: when the raw HTTP read of a group comes back with status 404,
`userGroupReadHelper` returns a nil group, `ok = false` and a nil error,
and `resourceUserGroupRead` then clears exactly the identifier, leaving
every other state field untouched, and returns no error; a transport
failure, or a JSON decode failure on a non-404 response, propagates the
error with the whole state, identifier included, untouched. -/
theorem read_404_clears_id_other_failures_propagate
    (decode : String → Except String UserGroup) (d : ResourceData) (res : HttpResponse)
    (memberEmails : Except String (List String)) (h404 : res.statusCode = 404) :
    ResourceUserGroup.userGroupReadHelper (.ok res) decode = ⟨none, false, none⟩ ∧
    ResourceUserGroup.resourceUserGroupRead
        (ResourceUserGroup.userGroupReadHelper (.ok res) decode) memberEmails d =
      ({ d with id := "" }, none) ∧
    (∀ e, ResourceUserGroup.userGroupReadHelper (.error e) decode = ⟨none, false, some e⟩ ∧
      ResourceUserGroup.resourceUserGroupRead
          (ResourceUserGroup.userGroupReadHelper (.error e) decode) memberEmails d =
        (d, some e)) ∧
    (∀ res2 e, res2.statusCode ≠ 404 → decode res2.body = .error e →
      ResourceUserGroup.userGroupReadHelper (.ok res2) decode = ⟨none, true, some e⟩ ∧
      ResourceUserGroup.resourceUserGroupRead
          (ResourceUserGroup.userGroupReadHelper (.ok res2) decode) memberEmails d =
        (d, some e)) := by
  refine ⟨?_, ?_, ?_, ?_⟩
  · simp [ResourceUserGroup.userGroupReadHelper, h404]
  · simp [ResourceUserGroup.userGroupReadHelper, ResourceUserGroup.resourceUserGroupRead, h404]
  · intro e
    exact ⟨rfl, rfl⟩
  · intro res2 e hst hdec
    constructor
    · simp [ResourceUserGroup.userGroupReadHelper, hst, hdec]
    · simp [ResourceUserGroup.userGroupReadHelper, ResourceUserGroup.resourceUserGroupRead,
        hst, hdec]

/-- Witness for C4: a 404 response, a transport failure and a 500 response
with an undecodable body, at concrete inputs. -/
theorem read_404_clears_id_other_failures_propagate_witness :
    ResourceUserGroup.userGroupReadHelper (.ok ⟨404, "irrelevant"⟩)
        (fun _ => .error "bad json") = ⟨none, false, none⟩ ∧
    ResourceUserGroup.resourceUserGroupRead
        (ResourceUserGroup.userGroupReadHelper (.ok ⟨404, "irrelevant"⟩)
          (fun _ => .error "bad json")) (.ok [])
        ⟨"id0", "grp", ⟨"1001:posix"⟩, ["a@b.com"]⟩ =
      (⟨"", "grp", ⟨"1001:posix"⟩, ["a@b.com"]⟩, none) ∧
    ResourceUserGroup.resourceUserGroupRead
        (ResourceUserGroup.userGroupReadHelper (.error "io timeout")
          (fun _ => .error "bad json")) (.ok [])
        ⟨"id0", "grp", ⟨"1001:posix"⟩, ["a@b.com"]⟩ =
      (⟨"id0", "grp", ⟨"1001:posix"⟩, ["a@b.com"]⟩, some "io timeout") ∧
    ResourceUserGroup.resourceUserGroupRead
        (ResourceUserGroup.userGroupReadHelper (.ok ⟨500, "oops"⟩)
          (fun _ => .error "bad json")) (.ok [])
        ⟨"id0", "grp", ⟨"1001:posix"⟩, ["a@b.com"]⟩ =
      (⟨"id0", "grp", ⟨"1001:posix"⟩, ["a@b.com"]⟩, some "bad json") := by
  have h := read_404_clears_id_other_failures_propagate (fun _ => .error "bad json")
    ⟨"id0", "grp", ⟨"1001:posix"⟩, ["a@b.com"]⟩ ⟨404, "irrelevant"⟩ (.ok []) rfl
  exact ⟨h.1, h.2.1, (h.2.2.1 "io timeout").2,
    (h.2.2.2 ⟨500, "oops"⟩ "bad json" (by simp) rfl).2⟩

/-! ### C6 -/

/-- C6: on an empty input list, both copies of `userIDsToEmails` return an
empty email list with no error, and both copies of `userEmailsToIDs`
return an empty ID list with no error, all four performing zero fetch
calls. -/
theorem empty_translation_inputs_short_circuit :
    (∀ list fuel, Utils.userIDsToEmails list [] fuel = some (.ok [], 0)) ∧
    (∀ list fuel, Utils.userEmailsToIDs list [] fuel = some (.ok [], 0)) ∧
    (∀ list fuel, ResourceUserGroup.userIDsToEmails list [] fuel = some (.ok [], 0)) ∧
    (∀ list fuel, ResourceUserGroup.userEmailsToIDs list [] fuel = some (.ok [], 0)) :=
  ⟨fun _ _ => rfl, fun _ _ => rfl, fun _ _ => rfl, fun _ _ => rfl⟩

/-! ### C7 -/

/-- Modelled from the spec: the Go stdlib JSON decoding of the raw read's
response body into the `UserGroup` record (the struct declaration and its
JSON tags are outside the embedded files). An empty-object body decodes
successfully into the record with every field at its zero value; bodies
outside the test fixture's shape fail to decode. -/
def decodeUserGroupBody : String → Except String UserGroup := fun body =>
  if body = "\x7b\x7d" then .ok { ID := "", Name := "", Attributes := { posixGroups := "" } }
  else .error ("json decode failure: " ++ body)

/-- C7: a non-404 response whose body is the empty JSON object makes
`userGroupReadHelper` return `ok = true`, no error, and a non-nil group
record all of whose fields hold their zero values. -/
theorem read_empty_object_yields_default_group (res : HttpResponse)
    (hstatus : res.statusCode ≠ 404) (hbody : res.body = "\x7b\x7d") :
    ResourceUserGroup.userGroupReadHelper (.ok res) decodeUserGroupBody =
      ⟨some { ID := "", Name := "", Attributes := { posixGroups := "" } }, true, none⟩ := by
  simp [ResourceUserGroup.userGroupReadHelper, hstatus, decodeUserGroupBody, hbody]

/-- Witness for C7: a 200 response with body the empty JSON object. -/
theorem read_empty_object_yields_default_group_witness :
    ResourceUserGroup.userGroupReadHelper (.ok ⟨200, "\x7b\x7d"⟩) decodeUserGroupBody =
      ⟨some { ID := "", Name := "", Attributes := { posixGroups := "" } }, true, none⟩ :=
  read_empty_object_yields_default_group ⟨200, "\x7b\x7d"⟩ (by simp) rfl

/-! ### C8 -/

/-- C8: with neither the name nor the display_label filter provided, the
application lookup data source returns the fixed business-validation
error and issues zero applications-listing calls. -/
theorem application_lookup_requires_filter :
    ∀ listApps, dataSourceJumpCloudApplicationRead listApps none none =
      (.error "either name or display_label must be provided", 0) :=
  fun _ => rfl

/-! ### C10 -/

/-- C10: the `userEmail.(string)` conversion step of both copies of
`userEmailsToIDs` never panics exactly when every element of the input
list is a string: under that precondition the conversion succeeds (the
failing assertion branch is unreachable) in both copies with the same
strings, while a non-string element does make the conversion step panic
(modelled as `none`). -/
theorem email_conversion_total_iff_all_strings (l : List GoValue)
    (h : ∀ v ∈ l, ∃ s, v = GoValue.str s) :
    (∃ ss, Utils.assertStrings l = some ss ∧ ResourceUserGroup.assertStrings l = some ss) ∧
    Utils.assertStrings [GoValue.other] = none ∧
    ResourceUserGroup.assertStrings [GoValue.other] = none := by
  refine ⟨?_, rfl, rfl⟩
  induction l with
  | nil => exact ⟨[], rfl, rfl⟩
  | cons v rest ih =>
    obtain ⟨s, rfl⟩ := h v (by simp)
    obtain ⟨ss, h1, h2⟩ := ih (fun w hw => h w (by simp [hw]))
    exact ⟨s :: ss, by simp [Utils.assertStrings, h1],
      by simp [ResourceUserGroup.assertStrings, h2]⟩

/-- Witness for C10: a one-element all-string input. -/
theorem email_conversion_total_iff_all_strings_witness :
    (∃ ss, Utils.assertStrings [GoValue.str "a@b.com"] = some ss ∧
      ResourceUserGroup.assertStrings [GoValue.str "a@b.com"] = some ss) ∧
    Utils.assertStrings [GoValue.other] = none ∧
    ResourceUserGroup.assertStrings [GoValue.other] = none :=
  email_conversion_total_iff_all_strings [GoValue.str "a@b.com"]
    (by intro v hv; simp only [List.mem_singleton] at hv; exact ⟨"a@b.com", hv⟩)

end JumpCloud
